import Mathlib

/-!
Shallow embedding of `src/board.rs` from the Rusty-Kilobot repository.

The board stores a 2D grid of optional `BotLocation`s packed row-major into a
vector.  `width` and `height` are Rust `u8` values and the index arithmetic
`x + y * width` is performed in `u8` before being cast to `usize`, so every
`u8` operation is modelled with an explicit wrap `% 256` (release-mode
wrapping semantics).  Rust panics (failing `unwrap`, in release also the
wrapped arithmetic is kept as the stored value) are modelled by `Option`:
`none` is a panic, `some r` is a normal return of `r`.
-/

/-- Modelled from the spec: the agent type `Kilobot` comes from
`crate::kilobot`, which is not part of this repository slice.  The spec treats
it as an opaque payload with a stable identity accessor, so it is modelled as
a wrapper around an identity number. -/
structure Kilobot where
  uid : Nat
deriving DecidableEq, Repr

/-- `LocationError` from board.rs. -/
inductive LocationError where
  | AlreadyOccupied
  | NotOccupied
  | OutOfBounds
deriving DecidableEq, Repr

/-- `BotLocation`: a placed bot together with its facing angle (degrees
clockwise from north, stored as given, a Rust `u16`). -/
structure BotLocation where
  bot : Kilobot
  facing : Nat
deriving DecidableEq, Repr

/-- `Board`: width and height are `u8` values (kept as `Nat`, callers pass
values below 256); `bots` is the 2D array packed into a vector. -/
structure Board where
  width : Nat
  height : Nat
  bots : List (Option BotLocation)
deriving DecidableEq, Repr

def NORTH : Nat := 0
def EAST : Nat := 90
def SOUTH : Nat := 180
def WEST : Nat := 270

/-- Wrap-around of Rust `u8` arithmetic. -/
def u8 (n : Nat) : Nat := n % 256

instance {ε α : Type} [DecidableEq ε] [DecidableEq α] : DecidableEq (Except ε α) :=
  fun a b =>
    match a, b with
    | .ok x, .ok y =>
      if h : x = y then isTrue (by rw [h]) else isFalse (by intro hc; cases hc; exact h rfl)
    | .error x, .error y =>
      if h : x = y then isTrue (by rw [h]) else isFalse (by intro hc; cases hc; exact h rfl)
    | .ok _, .error _ => isFalse (by intro hc; cases hc)
    | .error _, .ok _ => isFalse (by intro hc; cases hc)

/-- `new_board(width, height)`: pushes `None` once per element of
`0..width*height`, where `width * height` is a `u8` multiplication and hence
wraps modulo 256. -/
def new_board (width height : Nat) : Board :=
  { width := width, height := height, bots := List.replicate (u8 (width * height)) none }

namespace Board

/-- `Board::get_index_from_coord`: bounds check, then `(x + (y * width)) as
usize`, computed in `u8` (the multiplication and the addition each wrap). -/
def get_index_from_coord (b : Board) (x y : Nat) : Except LocationError Nat :=
  if x < b.width ∧ y < b.height then
    Except.ok (u8 (x + u8 (y * b.width)))
  else
    Except.error .OutOfBounds

/-- `Board::add_bot_location`.  Returns `none` on panic (the
`self.bots.get_mut(desired_index).unwrap()` when the index is outside the
vector), otherwise `some (error?, board after the call)`;  `error? = none`
means a successful insert. -/
def add_bot_location (b : Board) (bot : Kilobot) (x y facing : Nat) :
    Option (Option LocationError × Board) :=
  if x < b.width ∧ y < b.height then
    match b.get_index_from_coord x y with
    | .error e => some (some e, b)
    | .ok desired_index =>
      match b.bots.get? desired_index with
      | none => none
      | some desired_position =>
        match desired_position with
        | some _ => some (some .AlreadyOccupied, b)
        | none =>
          some (none, { b with bots := b.bots.set desired_index (some ⟨bot, facing⟩) })
  else
    some (some .OutOfBounds, b)

/-- `Board::remove_bot_location_at_index`.  Inside the bounds check,
`self.bots.get(index)` yields `Some(&cell)` for every in-bounds index
(occupied or not), so the `Some` arm runs `mem::replace` and then
`bot.unwrap()` — which panics (`none`) when the cell was empty.  The
`None => Err(NotOccupied)` arm is only reachable if `get` returned `None`. -/
def remove_bot_location_at_index (b : Board) (index : Nat) :
    Option (Except LocationError BotLocation × Board) :=
  if index < b.bots.length then
    match b.bots.get? index with
    | some cell =>
      match cell with
      | some bl => some (Except.ok bl, { b with bots := b.bots.set index none })
      | none => none
    | none => some (Except.error .NotOccupied, b)
  else
    some (Except.error .OutOfBounds, b)

/-- `Board::remove_bot_location_at_coord`: resolves the coordinates via
`get_index_from_coord` (the `?` operator propagates its error) and delegates
to `remove_bot_location_at_index`. -/
def remove_bot_location_at_coord (b : Board) (x y : Nat) :
    Option (Except LocationError BotLocation × Board) :=
  match b.get_index_from_coord x y with
  | .error e => some (Except.error e, b)
  | .ok index => b.remove_bot_location_at_index index

/-- `Board::get_bot_at_index`: bounds check, then `self.bots.get(index)
.unwrap()` (always succeeds in bounds), then matches the cell. -/
def get_bot_at_index (b : Board) (index : Nat) :
    Option (Except LocationError Kilobot) :=
  if index < b.bots.length then
    match b.bots.get? index with
    | some cell =>
      match cell with
      | some bl => some (Except.ok bl.bot)
      | none => some (Except.error .NotOccupied)
    | none => none
  else
    some (Except.error .OutOfBounds)

/-- `Board::get_bot_at_coord`: resolves the coordinates via
`get_index_from_coord` and delegates to `get_bot_at_index`. -/
def get_bot_at_coord (b : Board) (x y : Nat) :
    Option (Except LocationError Kilobot) :=
  match b.get_index_from_coord x y with
  | .error e => some (Except.error e)
  | .ok index => b.get_bot_at_index index

end Board

example : (new_board 2 2).bots.length = 4 := by decide
example : (new_board 2 2).get_index_from_coord 1 1 = Except.ok 3 := by decide
example : (new_board 16 16).bots.length = 0 := by decide
example : (new_board 2 2).remove_bot_location_at_index 0 = none := by decide
example : (new_board 16 17).get_index_from_coord 0 16 = Except.ok 0 := by decide

namespace Board

/-- For in-range coordinates the wrapped index stays below the mathematical
cell count `width * height`. -/
lemma index_lt_of_lt {w h x y : Nat} (hx : x < w) (hy : y < h) :
    u8 (x + u8 (y * w)) < w * h := by
  have h1 : u8 (x + u8 (y * w)) ≤ x + y * w :=
    calc u8 (x + u8 (y * w)) ≤ x + u8 (y * w) := Nat.mod_le _ _
      _ ≤ x + y * w := Nat.add_le_add_left (Nat.mod_le _ _) x
  have h2 : x + y * w < w * h :=
    calc x + y * w < w + y * w := Nat.add_lt_add_right hx _
      _ = (y + 1) * w := by ring
      _ ≤ h * w := Nat.mul_le_mul_right w (Nat.succ_le_of_lt hy)
      _ = w * h := Nat.mul_comm h w
  exact Nat.lt_of_le_of_lt h1 h2

lemma get_index_ok {b : Board} {x y : Nat} (hx : x < b.width) (hy : y < b.height) :
    b.get_index_from_coord x y = Except.ok (u8 (x + u8 (y * b.width))) := by
  unfold get_index_from_coord
  rw [if_pos ⟨hx, hy⟩]

lemma get_index_err {b : Board} {x y : Nat} (h : b.width ≤ x ∨ b.height ≤ y) :
    b.get_index_from_coord x y = Except.error .OutOfBounds := by
  unfold get_index_from_coord
  rw [if_neg (by omega)]

lemma add_of_empty {b : Board} (bot : Kilobot) {x y : Nat} (f : Nat)
    (hx : x < b.width) (hy : y < b.height)
    (hempty : b.bots.get? (u8 (x + u8 (y * b.width))) = some none) :
    b.add_bot_location bot x y f =
      some (none,
        { b with bots := b.bots.set (u8 (x + u8 (y * b.width))) (some ⟨bot, f⟩) }) := by
  have hi : u8 (x + u8 (y * b.width)) < b.bots.length := (List.get?_eq_some.mp hempty).1
  simp only [List.get?_eq_getElem?, List.getElem?_eq_getElem hi, Option.some.injEq] at hempty
  simp [add_bot_location, get_index_from_coord, hx, hy, hi, hempty]

lemma add_occupied {b : Board} (bot : Kilobot) {x y : Nat} (f : Nat) {bl : BotLocation}
    (hx : x < b.width) (hy : y < b.height)
    (hocc : b.bots.get? (u8 (x + u8 (y * b.width))) = some (some bl)) :
    b.add_bot_location bot x y f = some (some .AlreadyOccupied, b) := by
  have hi : u8 (x + u8 (y * b.width)) < b.bots.length := (List.get?_eq_some.mp hocc).1
  simp only [List.get?_eq_getElem?, List.getElem?_eq_getElem hi, Option.some.injEq] at hocc
  simp [add_bot_location, get_index_from_coord, hx, hy, hi, hocc]

lemma add_oob {b : Board} {bot : Kilobot} {x y f : Nat}
    (h : ¬(x < b.width ∧ y < b.height)) :
    b.add_bot_location bot x y f = some (some .OutOfBounds, b) := by
  unfold add_bot_location
  rw [if_neg h]

lemma remove_index_occupied {b : Board} {i : Nat} {bl : BotLocation}
    (hocc : b.bots.get? i = some (some bl)) :
    b.remove_bot_location_at_index i =
      some (Except.ok bl, { b with bots := b.bots.set i none }) := by
  have hi : i < b.bots.length := (List.get?_eq_some.mp hocc).1
  simp only [List.get?_eq_getElem?, List.getElem?_eq_getElem hi, Option.some.injEq] at hocc
  simp [remove_bot_location_at_index, hi, hocc]

lemma remove_index_empty {b : Board} {i : Nat}
    (hempty : b.bots.get? i = some none) :
    b.remove_bot_location_at_index i = none := by
  have hi : i < b.bots.length := (List.get?_eq_some.mp hempty).1
  simp only [List.get?_eq_getElem?, List.getElem?_eq_getElem hi, Option.some.injEq] at hempty
  simp [remove_bot_location_at_index, hi, hempty]

lemma remove_index_oob {b : Board} {i : Nat} (h : b.bots.length ≤ i) :
    b.remove_bot_location_at_index i = some (Except.error .OutOfBounds, b) := by
  unfold remove_bot_location_at_index
  rw [if_neg (by omega)]

lemma get_index_occupied {b : Board} {i : Nat} {bl : BotLocation}
    (hocc : b.bots.get? i = some (some bl)) :
    b.get_bot_at_index i = some (Except.ok bl.bot) := by
  have hi : i < b.bots.length := (List.get?_eq_some.mp hocc).1
  simp only [List.get?_eq_getElem?, List.getElem?_eq_getElem hi, Option.some.injEq] at hocc
  simp [get_bot_at_index, hi, hocc]

lemma get_index_empty {b : Board} {i : Nat}
    (hempty : b.bots.get? i = some none) :
    b.get_bot_at_index i = some (Except.error .NotOccupied) := by
  have hi : i < b.bots.length := (List.get?_eq_some.mp hempty).1
  simp only [List.get?_eq_getElem?, List.getElem?_eq_getElem hi, Option.some.injEq] at hempty
  simp [get_bot_at_index, hi, hempty]

lemma get_index_oob {b : Board} {i : Nat} (h : b.bots.length ≤ i) :
    b.get_bot_at_index i = some (Except.error .OutOfBounds) := by
  unfold get_bot_at_index
  rw [if_neg (by omega)]

/-- Any error return of `add_bot_location` carries the board back unchanged. -/
lemma add_error_eq {b b' : Board} {bot : Kilobot} {x y f : Nat} {e : LocationError}
    (h : b.add_bot_location bot x y f = some (some e, b')) : b' = b := by
  unfold add_bot_location at h
  split at h
  · split at h
    · simp only [Option.some.injEq, Prod.mk.injEq] at h
      exact h.2.symm
    · split at h
      · exact Option.noConfusion h
      · split at h
        · simp only [Option.some.injEq, Prod.mk.injEq] at h
          exact h.2.symm
        · simp at h
  · simp only [Option.some.injEq, Prod.mk.injEq] at h
    exact h.2.symm

/-- Any error return of `remove_bot_location_at_index` carries the board back
unchanged. -/
lemma remove_index_error_eq {b b' : Board} {i : Nat} {e : LocationError}
    (h : b.remove_bot_location_at_index i = some (Except.error e, b')) : b' = b := by
  unfold remove_bot_location_at_index at h
  split at h
  · split at h
    · split at h
      · simp at h
      · exact Option.noConfusion h
    · simp only [Option.some.injEq, Prod.mk.injEq] at h
      exact h.2.symm
  · simp only [Option.some.injEq, Prod.mk.injEq] at h
    exact h.2.symm

/-- Any error return of `remove_bot_location_at_coord` carries the board back
unchanged. -/
lemma remove_coord_error_eq {b b' : Board} {x y : Nat} {e : LocationError}
    (h : b.remove_bot_location_at_coord x y = some (Except.error e, b')) : b' = b := by
  unfold remove_bot_location_at_coord at h
  split at h
  · simp only [Option.some.injEq, Prod.mk.injEq] at h
    exact h.2.symm
  · exact remove_index_error_eq h

end Board

/-- C1: the spec says removing at an in-bounds empty cell fails with
`NotOccupied` and does not crash.  The code instead panics: `bots.get(index)`
returns `Some(&cell)` for every in-bounds index, so the `Some` arm runs and
`bot.unwrap()` unwraps the `None` that was in the empty cell.  Evaluated on a
fresh 2×2 board (all cells empty): both the index form at index 0 and the
coordinate form at (0,0) panic (modelled as `none`) instead of returning
`Err(NotOccupied)`. -/
theorem remove_empty_cell_panics :
    (new_board 2 2).remove_bot_location_at_index 0 = none ∧
    (new_board 2 2).remove_bot_location_at_coord 0 0 = none := by
  decide

/-- C2: the spec says `coordinate_to_index(x, y)` returns the mathematical
integer `x + y*width`.  The code computes `x + y * width` in `u8` before the
`usize` cast, so it wraps modulo 256: on a board with width 16 and height 17,
the valid coordinate (0, 16) yields index 0 instead of the mathematical value
`0 + 16*16 = 256` (and the mapping cannot be a bijection onto
`[0, width*height)`). -/
theorem get_index_overflow_wraps :
    (new_board 16 17).get_index_from_coord 0 16 = Except.ok 0 ∧
    0 + 16 * (new_board 16 17).width = 256 := by
  decide

/-- C3: the spec says `new(width, height)` allocates exactly `width*height`
cells.  The loop bound `0..width * height` is computed in `u8` and wraps
modulo 256: `new_board(16, 16)` produces 0 cells although
`width*height = 256`. -/
theorem new_board_overflow_cell_count :
    (new_board 16 16).bots.length = 0 ∧
    (new_board 16 16).width * (new_board 16 16).height = 256 := by
  decide

/-- C5: placing onto a valid coordinate whose cell already holds an occupant
fails with `AlreadyOccupied` and returns the board unchanged (so the existing
occupant is untouched and the new agent is not inserted anywhere). -/
theorem add_already_occupied (b : Board) (bot : Kilobot) (occ : BotLocation)
    (x y f : Nat) (hx : x < b.width) (hy : y < b.height)
    (hocc : b.bots.get? (u8 (x + u8 (y * b.width))) = some (some occ)) :
    b.add_bot_location bot x y f = some (some .AlreadyOccupied, b) :=
  Board.add_occupied bot f hx hy hocc

/-- Witness for C5 on a concrete 2×2 board whose cell (0,0) holds occupant
`⟨7⟩` facing 90: placing `⟨8⟩` there reports `AlreadyOccupied` and the board
(including the original occupant) is unchanged. -/
theorem add_already_occupied_witness :
    (Board.mk 2 2 [some ⟨⟨7⟩, 90⟩, none, none, none]).add_bot_location ⟨8⟩ 0 0 0 =
      some (some .AlreadyOccupied, Board.mk 2 2 [some ⟨⟨7⟩, 90⟩, none, none, none]) :=
  add_already_occupied (Board.mk 2 2 [some ⟨⟨7⟩, 90⟩, none, none, none]) ⟨8⟩
    ⟨⟨7⟩, 90⟩ 0 0 0 (by decide) (by decide) (by decide)

/-- C4: every operation rejects out-of-range locations with `OutOfBounds`:
the coordinate forms whenever `x ≥ width` or `y ≥ height`, and the index
forms whenever `index ≥ width*height` (on any board whose vector is no longer
than `width*height`, which holds for every constructed board).  In
particular, on a board with width 0 or height 0 every coordinate lookup
fails with `OutOfBounds`. -/
theorem out_of_bounds_everywhere (b : Board) (bot : Kilobot) (x y f i : Nat)
    (hlen : b.bots.length ≤ b.width * b.height) :
    (b.width ≤ x ∨ b.height ≤ y →
      b.get_index_from_coord x y = Except.error .OutOfBounds ∧
      b.add_bot_location bot x y f = some (some .OutOfBounds, b) ∧
      b.remove_bot_location_at_coord x y = some (Except.error .OutOfBounds, b) ∧
      b.get_bot_at_coord x y = some (Except.error .OutOfBounds)) ∧
    (b.width * b.height ≤ i →
      b.remove_bot_location_at_index i = some (Except.error .OutOfBounds, b) ∧
      b.get_bot_at_index i = some (Except.error .OutOfBounds)) ∧
    (b.width = 0 ∨ b.height = 0 →
      b.get_bot_at_coord x y = some (Except.error .OutOfBounds)) := by
  refine ⟨?_, ?_, ?_⟩
  · intro h
    have hidx := Board.get_index_err (b := b) (x := x) (y := y) h
    refine ⟨hidx, Board.add_oob (by omega), ?_, ?_⟩
    · unfold Board.remove_bot_location_at_coord
      rw [hidx]
    · unfold Board.get_bot_at_coord
      rw [hidx]
  · intro hi
    have hle : b.bots.length ≤ i := le_trans hlen hi
    exact ⟨Board.remove_index_oob hle, Board.get_index_oob hle⟩
  · intro h0
    have h : b.width ≤ x ∨ b.height ≤ y := by omega
    unfold Board.get_bot_at_coord
    rw [Board.get_index_err h]

/-- Witness for C4: on the 4×3 board of the spec's concrete scenario,
coordinate (4,0) and index 12 are rejected with `OutOfBounds`, and on a
0-width board even (0,0) is rejected. -/
theorem out_of_bounds_everywhere_witness :
    (new_board 4 3).get_index_from_coord 4 0 = Except.error .OutOfBounds ∧
    (new_board 4 3).remove_bot_location_at_index 12 =
      some (Except.error .OutOfBounds, new_board 4 3) ∧
    (new_board 0 5).get_bot_at_coord 0 0 = some (Except.error .OutOfBounds) := by
  refine ⟨?_, ?_, ?_⟩
  · exact ((out_of_bounds_everywhere (new_board 4 3) ⟨1⟩ 4 0 0 12 (by decide)).1
      (by decide)).1
  · exact ((out_of_bounds_everywhere (new_board 4 3) ⟨1⟩ 4 0 0 12 (by decide)).2.1
      (by decide)).1
  · exact (out_of_bounds_everywhere (new_board 0 5) ⟨1⟩ 0 0 0 0 (by decide)).2.2
      (by decide)

/-- C6: round trip on a valid empty cell: `place(bot, x, y, SOUTH)` succeeds,
a subsequent `remove_at(x, y)` succeeds and returns the occupant `⟨bot, 180⟩`
(facing SOUTH = 180, agent the one placed), and afterwards a get at that
location fails with `NotOccupied`. -/
theorem place_remove_round_trip (b : Board) (bot : Kilobot) (x y : Nat)
    (hx : x < b.width) (hy : y < b.height)
    (hempty : b.bots.get? (u8 (x + u8 (y * b.width))) = some none) :
    b.add_bot_location bot x y SOUTH =
      some (none,
        { b with bots := b.bots.set (u8 (x + u8 (y * b.width))) (some ⟨bot, SOUTH⟩) }) ∧
    (Board.mk b.width b.height
        (b.bots.set (u8 (x + u8 (y * b.width)))
          (some ⟨bot, SOUTH⟩))).remove_bot_location_at_coord x y =
      some (Except.ok ⟨bot, 180⟩,
        Board.mk b.width b.height
          ((b.bots.set (u8 (x + u8 (y * b.width))) (some ⟨bot, SOUTH⟩)).set
            (u8 (x + u8 (y * b.width))) none)) ∧
    (Board.mk b.width b.height
        ((b.bots.set (u8 (x + u8 (y * b.width))) (some ⟨bot, SOUTH⟩)).set
          (u8 (x + u8 (y * b.width))) none)).get_bot_at_coord x y =
      some (Except.error .NotOccupied) := by
  have hi : u8 (x + u8 (y * b.width)) < b.bots.length := (List.get?_eq_some.mp hempty).1
  have hi1 : u8 (x + u8 (y * b.width)) <
      (b.bots.set (u8 (x + u8 (y * b.width))) (some ⟨bot, SOUTH⟩)).length := by
    rw [List.length_set]
    exact hi
  refine ⟨Board.add_of_empty bot SOUTH hx hy hempty, ?_, ?_⟩
  · unfold Board.remove_bot_location_at_coord
    rw [Board.get_index_ok
      (b := Board.mk b.width b.height
        (b.bots.set (u8 (x + u8 (y * b.width))) (some ⟨bot, SOUTH⟩))) hx hy]
    exact Board.remove_index_occupied (List.get?_set_eq_of_lt _ hi)
  · unfold Board.get_bot_at_coord
    rw [Board.get_index_ok
      (b := Board.mk b.width b.height
        ((b.bots.set (u8 (x + u8 (y * b.width))) (some ⟨bot, SOUTH⟩)).set
          (u8 (x + u8 (y * b.width))) none)) hx hy]
    exact Board.get_index_empty (List.get?_set_eq_of_lt _ hi1)

/-- Witness for C6 on a fresh 2×2 board at cell (1,0): place `⟨5⟩` facing
SOUTH, remove it back out with facing 180, and the cell is empty again. -/
theorem place_remove_round_trip_witness :
    (new_board 2 2).add_bot_location ⟨5⟩ 1 0 SOUTH =
      some (none,
        { new_board 2 2 with
            bots := (new_board 2 2).bots.set (u8 (1 + u8 (0 * (new_board 2 2).width)))
              (some ⟨⟨5⟩, SOUTH⟩) }) ∧
    (Board.mk (new_board 2 2).width (new_board 2 2).height
        ((new_board 2 2).bots.set (u8 (1 + u8 (0 * (new_board 2 2).width)))
          (some ⟨⟨5⟩, SOUTH⟩))).remove_bot_location_at_coord 1 0 =
      some (Except.ok ⟨⟨5⟩, 180⟩,
        Board.mk (new_board 2 2).width (new_board 2 2).height
          (((new_board 2 2).bots.set (u8 (1 + u8 (0 * (new_board 2 2).width)))
            (some ⟨⟨5⟩, SOUTH⟩)).set (u8 (1 + u8 (0 * (new_board 2 2).width))) none)) ∧
    (Board.mk (new_board 2 2).width (new_board 2 2).height
        (((new_board 2 2).bots.set (u8 (1 + u8 (0 * (new_board 2 2).width)))
          (some ⟨⟨5⟩, SOUTH⟩)).set
            (u8 (1 + u8 (0 * (new_board 2 2).width))) none)).get_bot_at_coord 1 0 =
      some (Except.error .NotOccupied) :=
  place_remove_round_trip (new_board 2 2) ⟨5⟩ 1 0 (by decide) (by decide) (by decide)

/-- C7: placing into a valid empty cell and then getting the agent at that
coordinate returns the same agent that was placed. -/
theorem place_then_get (b : Board) (bot : Kilobot) (x y f : Nat)
    (hx : x < b.width) (hy : y < b.height)
    (hempty : b.bots.get? (u8 (x + u8 (y * b.width))) = some none) :
    b.add_bot_location bot x y f =
      some (none,
        { b with bots := b.bots.set (u8 (x + u8 (y * b.width))) (some ⟨bot, f⟩) }) ∧
    (Board.mk b.width b.height
        (b.bots.set (u8 (x + u8 (y * b.width))) (some ⟨bot, f⟩))).get_bot_at_coord x y =
      some (Except.ok bot) := by
  have hi : u8 (x + u8 (y * b.width)) < b.bots.length := (List.get?_eq_some.mp hempty).1
  refine ⟨Board.add_of_empty bot f hx hy hempty, ?_⟩
  unfold Board.get_bot_at_coord
  rw [Board.get_index_ok
    (b := Board.mk b.width b.height
      (b.bots.set (u8 (x + u8 (y * b.width))) (some ⟨bot, f⟩))) hx hy]
  exact @Board.get_index_occupied
    (Board.mk b.width b.height
      (b.bots.set (u8 (x + u8 (y * b.width))) (some ⟨bot, f⟩)))
    (u8 (x + u8 (y * b.width))) ⟨bot, f⟩
    (List.get?_set_eq_of_lt (some ⟨bot, f⟩) hi)

/-- Witness for C7 on a fresh 3×3 board at cell (2,1): place `⟨9⟩` facing 90,
then get the bot at (2,1) and receive `⟨9⟩` back. -/
theorem place_then_get_witness :
    (new_board 3 3).add_bot_location ⟨9⟩ 2 1 90 =
      some (none,
        { new_board 3 3 with
            bots := (new_board 3 3).bots.set (u8 (2 + u8 (1 * (new_board 3 3).width)))
              (some ⟨⟨9⟩, 90⟩) }) ∧
    (Board.mk (new_board 3 3).width (new_board 3 3).height
        ((new_board 3 3).bots.set (u8 (2 + u8 (1 * (new_board 3 3).width)))
          (some ⟨⟨9⟩, 90⟩))).get_bot_at_coord 2 1 = some (Except.ok ⟨9⟩) :=
  place_then_get (new_board 3 3) ⟨9⟩ 2 1 90 (by decide) (by decide) (by decide)

/-- If the bounds check passes but the computed index has no cell in the
vector, `add_bot_location` panics on its internal `unwrap` (modelled as
`none`). -/
lemma Board.add_cell_missing {b : Board} {bot : Kilobot} {x y f : Nat}
    (hx : x < b.width) (hy : y < b.height)
    (hnone : b.bots.get? (u8 (x + u8 (y * b.width))) = none) :
    b.add_bot_location bot x y f = none := by
  simp only [List.get?_eq_getElem?] at hnone
  simp [Board.add_bot_location, Board.get_index_from_coord, hx, hy, hnone]

/-- C8: whenever `place`, `remove_at`, or `remove_at_index` returns an error
(`OutOfBounds`, `AlreadyOccupied`, or `NotOccupied`), the board that comes
back is exactly the board that went in — no cell, width, or height has
changed. -/
theorem errors_leave_board_unchanged (b b' : Board) (bot : Kilobot)
    (x y f i : Nat) (e : LocationError) :
    (b.add_bot_location bot x y f = some (some e, b') → b' = b) ∧
    (b.remove_bot_location_at_coord x y = some (Except.error e, b') → b' = b) ∧
    (b.remove_bot_location_at_index i = some (Except.error e, b') → b' = b) :=
  ⟨Board.add_error_eq, Board.remove_coord_error_eq, Board.remove_index_error_eq⟩

/-- Witness for C8: an out-of-bounds place on a fresh 2×2 board reports
`OutOfBounds` and hands the identical board back. -/
theorem errors_leave_board_unchanged_witness :
    (new_board 2 2).add_bot_location ⟨1⟩ 5 0 90 =
      some (some .OutOfBounds, new_board 2 2) ∧ new_board 2 2 = new_board 2 2 :=
  ⟨by decide,
    (errors_leave_board_unchanged (new_board 2 2) (new_board 2 2) ⟨1⟩ 5 0 90 0
      .OutOfBounds).1 (by decide)⟩

/-- C9: a successful place changes only the cell at the computed index — the
width, height, vector length, and every other cell are unchanged; likewise a
successful `remove_at_index i` changes only the cell at index `i`. -/
theorem success_frame (b b' : Board) (bot : Kilobot) (x y f i : Nat)
    (bl : BotLocation) :
    (b.add_bot_location bot x y f = some (none, b') →
      b'.width = b.width ∧ b'.height = b.height ∧
      b'.bots.length = b.bots.length ∧
      ∀ j, j ≠ u8 (x + u8 (y * b.width)) → b'.bots.get? j = b.bots.get? j) ∧
    (b.remove_bot_location_at_index i = some (Except.ok bl, b') →
      b'.width = b.width ∧ b'.height = b.height ∧
      b'.bots.length = b.bots.length ∧
      ∀ j, j ≠ i → b'.bots.get? j = b.bots.get? j) := by
  constructor
  · intro h
    by_cases hxy : x < b.width ∧ y < b.height
    · rcases hcell : b.bots.get? (u8 (x + u8 (y * b.width))) with _ | cell
      · rw [Board.add_cell_missing hxy.1 hxy.2 hcell] at h
        exact Option.noConfusion h
      · rcases cell with _ | bl2
        · rw [Board.add_of_empty bot f hxy.1 hxy.2 hcell] at h
          simp only [Option.some.injEq, Prod.mk.injEq, true_and] at h
          subst h
          refine ⟨rfl, rfl, by simp, ?_⟩
          intro j hj
          exact List.get?_set_ne _ _ (Ne.symm hj)
        · rw [Board.add_occupied bot f hxy.1 hxy.2 hcell] at h
          simp at h
    · rw [Board.add_oob hxy] at h
      simp at h
  · intro h
    by_cases hi : i < b.bots.length
    · rcases hcell : b.bots.get? i with _ | cell
      · rw [List.get?_eq_get hi] at hcell
        exact Option.noConfusion hcell
      · rcases cell with _ | bl2
        · rw [Board.remove_index_empty hcell] at h
          exact Option.noConfusion h
        · rw [Board.remove_index_occupied hcell] at h
          simp only [Option.some.injEq, Prod.mk.injEq] at h
          obtain ⟨-, h2⟩ := h
          subst h2
          refine ⟨rfl, rfl, by simp, ?_⟩
          intro j hj
          exact List.get?_set_ne _ _ (Ne.symm hj)
    · rw [Board.remove_index_oob (Nat.le_of_not_lt hi)] at h
      simp at h

/-- Witness for C9: on a 2×2 board whose cell 0 holds `⟨1⟩`, placing `⟨2⟩` at
(0,1) (index 2) leaves cell 1 exactly as it was. -/
theorem success_frame_witness :
    ((Board.mk 2 2 [some ⟨⟨1⟩, 180⟩, none, none, none]).add_bot_location
      ⟨2⟩ 0 1 90 =
        some (none, Board.mk 2 2 [some ⟨⟨1⟩, 180⟩, none, some ⟨⟨2⟩, 90⟩, none])) ∧
    (Board.mk 2 2 [some ⟨⟨1⟩, 180⟩, none, some ⟨⟨2⟩, 90⟩, none]).bots.get? 1 =
      (Board.mk 2 2 [some ⟨⟨1⟩, 180⟩, none, none, none]).bots.get? 1 := by
  constructor
  · decide
  · exact ((success_frame (Board.mk 2 2 [some ⟨⟨1⟩, 180⟩, none, none, none])
      (Board.mk 2 2 [some ⟨⟨1⟩, 180⟩, none, some ⟨⟨2⟩, 90⟩, none]) ⟨2⟩ 0 1 90 0
      ⟨⟨1⟩, 180⟩).1 (by decide)).2.2.2 1 (by decide)

/-- C10: on a board satisfying the length invariant
`bots.length = width * height`, `get_bot_at_index` is total for every
in-bounds index — it returns the bot of an occupied cell or the
`NotOccupied` error for an empty one, never hitting its internal `unwrap` —
and `add_bot_location` never hits its internal `unwrap` either (for any
coordinates, it returns some outcome rather than panicking). -/
theorem inbounds_access_total (b : Board)
    (hinv : b.bots.length = b.width * b.height) :
    (∀ i, i < b.bots.length →
      (∀ bl, b.bots.get? i = some (some bl) →
        b.get_bot_at_index i = some (Except.ok bl.bot)) ∧
      (b.bots.get? i = some none →
        b.get_bot_at_index i = some (Except.error .NotOccupied))) ∧
    (∀ (bot : Kilobot) (x y f : Nat), (b.add_bot_location bot x y f).isSome) := by
  constructor
  · intro i _
    exact ⟨fun bl hocc => Board.get_index_occupied hocc,
           fun hempty => Board.get_index_empty hempty⟩
  · intro bot x y f
    by_cases hxy : x < b.width ∧ y < b.height
    · have hlt : u8 (x + u8 (y * b.width)) < b.bots.length := by
        rw [hinv]
        exact Board.index_lt_of_lt hxy.1 hxy.2
      rcases hcell : b.bots.get? (u8 (x + u8 (y * b.width))) with _ | cell
      · rw [List.get?_eq_get hlt] at hcell
        exact Option.noConfusion hcell
      · rcases cell with _ | bl
        · rw [Board.add_of_empty bot f hxy.1 hxy.2 hcell]
          rfl
        · rw [Board.add_occupied bot f hxy.1 hxy.2 hcell]
          rfl
    · rw [Board.add_oob hxy]
      rfl

/-- Witness for C10 on the 4×3 board: reading empty cell 0 reports
`NotOccupied`, and placing at the far corner (3,2) returns an outcome rather
than panicking. -/
theorem inbounds_access_total_witness :
    (new_board 4 3).get_bot_at_index 0 = some (Except.error .NotOccupied) ∧
    ((new_board 4 3).add_bot_location ⟨3⟩ 3 2 0).isSome := by
  constructor
  · exact ((inbounds_access_total (new_board 4 3) (by decide)).1 0 (by decide)).2
      (by decide)
  · exact (inbounds_access_total (new_board 4 3) (by decide)).2 ⟨3⟩ 3 2 0
